import Mathlib

/-!
Verification of the Policy Governance & Proposal Lifecycle Engine.

The repository ships HTTP test scripts for a TypeScript governance backend
whose implementation is not part of the source tree; the definitions below
are therefore modelled from the specification document (spec.md), which
describes the proposal state machine, the governance lock, the versioned
policy store with optimistic concurrency, and the append-only audit ledger.
-/

set_option maxRecDepth 4096

namespace PolicyGovernance

/-- Modelled from the spec: cohort/source a proposal's learning vector was
computed from (LIVE, V2020, V2014, BOOTSTRAP). -/
inductive Source
  | LIVE
  | V2020
  | V2014
  | BOOTSTRAP
deriving DecidableEq, Repr

/-- Modelled from the spec: drift severity tiers; CRITICAL and CRISIS form
the blocking tier for the governance lock. -/
inductive Severity
  | NONE
  | LOW
  | MEDIUM
  | HIGH
  | CRITICAL
  | CRISIS
deriving DecidableEq, Repr

/-- Modelled from the spec: proposal lifecycle status. -/
inductive PStatus
  | PROPOSED
  | APPLIED
  | REJECTED
deriving DecidableEq, Repr

/-- Modelled from the spec: proposal verdict. -/
inductive Verdict
  | HOLD
  | TUNE
  | ROLLBACK
deriving DecidableEq, Repr

/-- Modelled from the spec: proposal risk level. -/
inductive Risk
  | LOW
  | MED
  | HIGH
deriving DecidableEq, Repr

/-- Modelled from the spec: error taxonomy of §7 plus the transport-level
validation code used by the apply endpoint. -/
inductive GError
  | NotFound
  | InvalidTransition
  | InvalidState
  | StaleHash
  | GovernanceLocked (reasons : List String)
  | AlreadyRolledBack
  | IntegrityFault
  | BadRequest (code : String)
deriving DecidableEq, Repr

/-- True for a source exactly when it is the LIVE cohort. -/
def Source.isLIVE : Source → Bool
  | Source.LIVE => true
  | _ => false

/-- Modelled from the spec: the blocking tier of drift severities
(CRITICAL/CRISIS-level divergence between cohorts). -/
def Severity.blocking : Severity → Bool
  | Severity.CRITICAL => true
  | Severity.CRISIS => true
  | _ => false

/-- Modelled from the spec: eligibility signals fed to GovernanceLock. -/
structure Signals where
  liveSamples : Nat
  driftSeverity : Severity
  contractHashMatch : Bool
  proposalSource : Source
deriving DecidableEq, Repr

/-- Modelled from the spec: the constant minimum number of resolved LIVE
samples required before an apply is permitted. -/
def minRequired : Nat := 30

/-- Modelled from the spec: GovernanceLockStatus, computed on demand. -/
structure GovernanceLockStatus where
  liveSamples : Nat
  minRequired : Nat
  driftSeverity : Severity
  contractHashMatch : Bool
  isLiveOnly : Bool
  canApply : Bool
  reasons : List String
deriving DecidableEq, Repr

/-- Modelled from the spec: the content of a scoring policy document —
tier weights, horizon weights, regime multipliers, divergence penalties and
phase-grade multipliers (weights represented as scaled naturals). -/
structure PolicyContent where
  tierStructure : Nat
  tierTactical : Nat
  tierTiming : Nat
  horizonWeight : Nat
  regimeMultiplier : Nat
  divergencePenalty : Nat
  phaseGradeMultiplier : Nat
deriving DecidableEq, Repr

/-- Modelled from the spec: deterministic digest of the policy content; the
hash is always recomputed from content, never stored independently of it. -/
def policyHash (c : PolicyContent) : Nat :=
  [c.tierStructure, c.tierTactical, c.tierTiming, c.horizonWeight,
    c.regimeMultiplier, c.divergencePenalty, c.phaseGradeMultiplier].foldl
    (fun h x => (h * 1000003 + x) % 4294967296) 2166136261

/-- Modelled from the spec: the active policy document of a symbol, with a
monotonically increasing version. -/
structure Policy where
  content : PolicyContent
  version : Nat
deriving DecidableEq, Repr

/-- The policy hash, recomputed from content on demand. -/
def Policy.hash (p : Policy) : Nat := policyHash p.content

/-- Modelled from the spec: per-symbol record of the PolicyStore — the
current policy and the ordered history of prior versions, newest first. -/
structure PolicyRecord where
  symbol : String
  current : Policy
  history : List Policy
deriving DecidableEq, Repr

/-- Modelled from the spec: the PolicyStore, one record per symbol. -/
def PolicyStore := List PolicyRecord

instance : DecidableEq PolicyStore := by
  unfold PolicyStore
  infer_instance

/-- Look up the record of a symbol in the PolicyStore. -/
def lookupRecord (ps : PolicyStore) (sym : String) : Option PolicyRecord :=
  ps.find? (fun r => r.symbol = sym)

/-- Modelled from the spec: PolicyStore.getCurrent — fails NotFound when no
policy was ever initialized for the symbol. -/
def getCurrent (ps : PolicyStore) (sym : String) : Except GError Policy :=
  match lookupRecord ps sym with
  | none => Except.error GError.NotFound
  | some r => Except.ok r.current

/-- Modelled from the spec: PolicyStore.replace — atomically swaps the
active policy only when the current hash equals expectedHash, otherwise
fails StaleHash; on success increments the version, recomputes the hash
from the new content, and pushes the old policy onto the history. -/
def replace (ps : PolicyStore) (sym : String) (expectedHash : Nat)
    (c : PolicyContent) : Except GError (PolicyStore × Policy) :=
  match lookupRecord ps sym with
  | none => Except.error GError.NotFound
  | some r =>
    if r.current.hash = expectedHash then
      let newPol : Policy := ⟨c, r.current.version + 1⟩
      Except.ok
        (ps.map (fun q =>
          if q.symbol = sym then
            { q with current := newPol, history := q.current :: q.history }
          else q),
         newPol)
    else Except.error GError.StaleHash

/-- Modelled from the spec: guardrail outcome recorded on a proposal. -/
structure Guardrails where
  eligible : Bool
  reasons : List String
deriving DecidableEq, Repr

/-- Modelled from the spec: the pass/fail contract of the simulation
collaborator — whether the backtest passed, its notes, and whether the
candidate regressed materially against the current baseline. -/
structure Simulation where
  passed : Bool
  notes : List String
  regressed : Bool
deriving DecidableEq, Repr

/-- Modelled from the spec: one entry of a proposal's delta list, a
field-by-field difference between current and candidate policy. -/
structure Delta where
  field : String
  fromVal : Nat
  toVal : Nat
deriving DecidableEq, Repr

/-- Modelled from the spec: the scope a proposal was computed for. -/
structure Scope where
  preset : String
  role : String
  focus : String
  window : Nat
deriving DecidableEq, Repr

/-- Modelled from the spec: a Proposal entity, immutable after creation
except for status, rejection metadata and appliedAt. -/
structure Proposal where
  proposalId : String
  symbol : String
  source : Source
  scope : Scope
  status : PStatus
  verdict : Verdict
  risk : Risk
  deltas : List Delta
  guardrails : Guardrails
  simulation : Simulation
  rejectedReason : Option String
  rejectedBy : Option String
  currentPolicy : Policy
  proposedPolicy : PolicyContent
deriving DecidableEq, Repr

/-- Modelled from the spec: an Application audit record, created exactly
once per successful apply (and once per rollback, which is itself an
audited apply).  applicationId is the store's unique counter value. -/
structure Application where
  applicationId : Nat
  proposalId : String
  symbol : String
  appliedBy : String
  previousPolicyHash : Nat
  newPolicyHash : Nat
deriving DecidableEq, Repr

/-- Modelled from the spec: the whole governance service state — policy
store, proposal store (newest first), append-only application ledger
(newest first) and the fresh-id counter. -/
structure GovState where
  policies : PolicyStore
  proposals : List Proposal
  ledger : List Application
  nextId : Nat
deriving DecidableEq

/-- Find a proposal by id in the proposal store. -/
def findProposal (props : List Proposal) (pid : String) : Option Proposal :=
  props.find? (fun q => q.proposalId = pid)

/-- Modelled from the spec: ProposalStore.markApplied — internal, fails
InvalidTransition unless the proposal status is PROPOSED. -/
def markApplied (props : List Proposal) (pid : String) :
    Except GError (List Proposal) :=
  match findProposal props pid with
  | none => Except.error GError.NotFound
  | some q =>
    if q.status = PStatus.PROPOSED then
      Except.ok (props.map (fun r =>
        if r.proposalId = pid then { r with status := PStatus.APPLIED } else r))
    else Except.error GError.InvalidTransition

/-- Human-readable reason appended when the proposal source is not LIVE. -/
def sourceReason : String :=
  "proposal source is not LIVE; only LIVE-sourced proposals may be applied"

/-- Human-readable reason appended when live samples are below the minimum. -/
def samplesReason : String :=
  "live samples below minimum required of 30"

/-- Human-readable reason appended when drift severity is blocking. -/
def driftReason : String :=
  "drift severity is in the blocking tier"

/-- Human-readable reason appended when the contract hash does not match. -/
def contractReason : String :=
  "contract hash mismatch with current service contract"

/-- Modelled from the spec: the pure governance-lock decision function of
§4.2.  All four conditions must hold for canApply; each failing condition
appends a human-readable reason. -/
def GovernanceLock.evaluate (s : Signals) : GovernanceLockStatus :=
  let sourceOk := s.proposalSource.isLIVE
  let samplesOk := decide (minRequired ≤ s.liveSamples)
  let driftOk := !s.driftSeverity.blocking
  let contractOk := s.contractHashMatch
  { liveSamples := s.liveSamples
    minRequired := minRequired
    driftSeverity := s.driftSeverity
    contractHashMatch := s.contractHashMatch
    isLiveOnly := sourceOk
    canApply := sourceOk && samplesOk && driftOk && contractOk
    reasons :=
      (if sourceOk then [] else [sourceReason]) ++
      (if samplesOk then [] else [samplesReason]) ++
      (if driftOk then [] else [driftReason]) ++
      (if contractOk then [] else [contractReason]) }

/-- Modelled from the spec: environment-supplied live eligibility signals
(live sample count from the forward-truth resolver, drift severity from
drift intelligence, contract compatibility). -/
structure LiveSignals where
  liveSamples : Nat
  driftSeverity : Severity
  contractHashMatch : Bool
deriving DecidableEq, Repr

/-- Combine environment signals with a proposal source into the full
signal record consumed by GovernanceLock.evaluate. -/
def mkSignals (env : LiveSignals) (src : Source) : Signals :=
  { liveSamples := env.liveSamples
    driftSeverity := env.driftSeverity
    contractHashMatch := env.contractHashMatch
    proposalSource := src }

/-- Modelled from the spec: the read-only governance-lock status probe
(GetGovernanceLockStatus); it calls the same evaluation function as the
gate inside apply. -/
def getGovernanceLockStatus (env : LiveSignals) (src : Source) :
    GovernanceLockStatus :=
  GovernanceLock.evaluate (mkSignals env src)

/-- Modelled from the spec: the read phase of GovernanceService.apply —
load the proposal (InvalidState unless PROPOSED), then consult
GovernanceLock.evaluate on the live signals; fails GovernanceLocked
carrying the reasons when canApply is false. -/
def applyCheck (st : GovState) (pid : String) (env : LiveSignals) :
    Except GError Proposal :=
  match findProposal st.proposals pid with
  | none => Except.error GError.NotFound
  | some p =>
    if p.status = PStatus.PROPOSED then
      let lock := GovernanceLock.evaluate (mkSignals env p.source)
      if lock.canApply then Except.ok p
      else Except.error (GError.GovernanceLocked lock.reasons)
    else Except.error GError.InvalidState

/-- Modelled from the spec: the write phase of GovernanceService.apply —
CAS-replace the policy against the proposal's snapshot hash, mark the
proposal applied, and append the Application record to the ledger.  A
failure after the policy swap is surfaced as IntegrityFault with the
partial mutation persisted. -/
def applyWrite (st : GovState) (p : Proposal) (actor : String) :
    GovState × Except GError Application :=
  match replace st.policies p.symbol p.currentPolicy.hash p.proposedPolicy with
  | Except.error e => (st, Except.error e)
  | Except.ok (ps2, newPol) =>
    match markApplied st.proposals p.proposalId with
    | Except.error _ =>
      ({ st with policies := ps2 }, Except.error GError.IntegrityFault)
    | Except.ok props2 =>
      let app : Application :=
        { applicationId := st.nextId
          proposalId := p.proposalId
          symbol := p.symbol
          appliedBy := actor
          previousPolicyHash := p.currentPolicy.hash
          newPolicyHash := newPol.hash }
      ({ st with
          policies := ps2
          proposals := props2
          ledger := app :: st.ledger
          nextId := st.nextId + 1 },
       Except.ok app)

/-- Modelled from the spec: GovernanceService.apply(proposalId, actor) —
read phase then write phase, executed atomically under the per-symbol
mutual exclusion of §5. -/
def applyProposal (st : GovState) (pid : String) (env : LiveSignals)
    (actor : String) : GovState × Except GError Application :=
  match applyCheck st pid env with
  | Except.error e => (st, Except.error e)
  | Except.ok p => applyWrite st p actor

/-- Modelled from the spec: the §5 race of two concurrent apply calls when
serialization happens at the storage-layer CAS — both read phases observe
the initial state, then the write phases run serialized in order. -/
def raceApply (st0 : GovState) (pid1 pid2 : String) (env : LiveSignals)
    (actor : String) :
    GovState × (Except GError Application × Except GError Application) :=
  match applyCheck st0 pid1 env, applyCheck st0 pid2 env with
  | Except.ok p1, Except.ok p2 =>
    let w1 := applyWrite st0 p1 actor
    let w2 := applyWrite w1.1 p2 actor
    (w2.1, (w1.2, w2.2))
  | Except.ok p1, Except.error e2 =>
    let w1 := applyWrite st0 p1 actor
    (w1.1, (w1.2, Except.error e2))
  | Except.error e1, Except.ok p2 =>
    let w2 := applyWrite st0 p2 actor
    (w2.1, (Except.error e1, w2.2))
  | Except.error e1, Except.error e2 =>
    (st0, (Except.error e1, Except.error e2))

/-- Modelled from the spec: ProposalStore.reject — requires a reason and an
actor; fails InvalidTransition unless the status is PROPOSED; on success
sets status REJECTED with the rejection metadata. -/
def reject (st : GovState) (pid : String) (reason actor : String) :
    GovState × Except GError Proposal :=
  if reason = "" then
    (st, Except.error (GError.BadRequest "REASON_REQUIRED"))
  else
    match findProposal st.proposals pid with
    | none => (st, Except.error GError.NotFound)
    | some p =>
      if p.status = PStatus.PROPOSED then
        let p2 := { p with
          status := PStatus.REJECTED
          rejectedReason := some reason
          rejectedBy := some actor }
        ({ st with proposals := st.proposals.map (fun r =>
            if r.proposalId = pid then p2 else r) },
         Except.ok p2)
      else (st, Except.error GError.InvalidTransition)

/-- The most recent application recorded for a symbol (ledger is newest
first). -/
def latestApplication (ledger : List Application) (sym : String) :
    Option Application :=
  ledger.find? (fun a => a.symbol = sym)

/-- Resolve, in a policy history, the version whose recomputed content hash
equals the given digest; used to resolve rollback targets. -/
def contentWithHash (history : List Policy) (h : Nat) : Option Policy :=
  history.find? (fun p => p.hash = h)

/-- Modelled from the spec: ApplicationLedger.rollback(applicationId,
actor) — NotFound when the application does not exist; AlreadyRolledBack
unless it is the most recent application for its symbol; otherwise
restores the content captured at previousPolicyHash via a CAS against the
current hash (which must equal this application's newPolicyHash) and
appends a new Application documenting the rollback. -/
def rollback (st : GovState) (appId : Nat) (actor : String) :
    GovState × Except GError Application :=
  match st.ledger.find? (fun a => a.applicationId = appId) with
  | none => (st, Except.error GError.NotFound)
  | some a =>
    match latestApplication st.ledger a.symbol with
    | none => (st, Except.error GError.NotFound)
    | some latest =>
      if latest.applicationId = appId then
        match lookupRecord st.policies a.symbol with
        | none => (st, Except.error GError.NotFound)
        | some r =>
          match contentWithHash r.history a.previousPolicyHash with
          | none => (st, Except.error GError.IntegrityFault)
          | some prev =>
            match replace st.policies a.symbol a.newPolicyHash prev.content with
            | Except.error e => (st, Except.error e)
            | Except.ok (ps2, newPol) =>
              let rb : Application :=
                { applicationId := st.nextId
                  proposalId := a.proposalId
                  symbol := a.symbol
                  appliedBy := actor
                  previousPolicyHash := a.newPolicyHash
                  newPolicyHash := newPol.hash }
              ({ st with
                  policies := ps2
                  ledger := rb :: st.ledger
                  nextId := st.nextId + 1 },
               Except.ok rb)
      else (st, Except.error GError.AlreadyRolledBack)

/-- Modelled from the spec: proposal statistics for a symbol — total and
the per-status counts over the closed status variant. -/
structure ProposalStats where
  total : Nat
  proposed : Nat
  applied : Nat
  rejected : Nat
deriving DecidableEq, Repr

/-- Modelled from the spec: ProposalStore.stats(symbol). -/
def stats (props : List Proposal) (sym : String) : ProposalStats :=
  let ps := props.filter (fun p => p.symbol = sym)
  { total := ps.length
    proposed := (ps.filter (fun p => p.status = PStatus.PROPOSED)).length
    applied := (ps.filter (fun p => p.status = PStatus.APPLIED)).length
    rejected := (ps.filter (fun p => p.status = PStatus.REJECTED)).length }

/-- Modelled from the spec: the learning vector interface of the external
Learning Aggregator (§6), restricted to the fields the engine consumes. -/
structure LearningVector where
  resolvedSamples : Nat
  divergenceImpact : Nat
  calibrationError : Nat
  learningEligible : Bool
  eligibilityReasons : List String
  dominantTierBoost : Nat
deriving DecidableEq, Repr

/-- Note recorded on guardrails when the simulation failed. -/
def simFailReason : String := "simulation backtest did not pass"

/-- Modelled from the spec: the candidate policy derived from the learning
vector's dominant tier signal — the dominant structure-tier weight is
nudged by the vector's boost. -/
def candidateFrom (lv : LearningVector) (c : PolicyContent) : PolicyContent :=
  { c with tierStructure := c.tierStructure + lv.dominantTierBoost }

/-- Modelled from the spec: the field-by-field delta list between the
current content and the candidate content (only changed fields listed). -/
def computeDeltas (c cand : PolicyContent) : List Delta :=
  (if c.tierStructure = cand.tierStructure then [] else
    [⟨"tierWeights.STRUCTURE", c.tierStructure, cand.tierStructure⟩]) ++
  (if c.tierTactical = cand.tierTactical then [] else
    [⟨"tierWeights.TACTICAL", c.tierTactical, cand.tierTactical⟩]) ++
  (if c.tierTiming = cand.tierTiming then [] else
    [⟨"tierWeights.TIMING", c.tierTiming, cand.tierTiming⟩])

/-- Modelled from the spec: ProposalEngine.propose — builds deltas against
the candidate, evaluates guardrails from the learning vector's own
eligibility signals, records the simulation verdict (a failed simulation
forces guardrails.eligible to false but never refuses creation), derives
verdict and risk, and returns the Proposal in status PROPOSED. -/
def propose (lv : LearningVector) (cur : Policy) (sim : Simulation)
    (sym : String) (src : Source) (sc : Scope) (pid : String) : Proposal :=
  let cand := candidateFrom lv cur.content
  let deltas := computeDeltas cur.content cand
  let baseEligible := lv.learningEligible
  let eligible := baseEligible && sim.passed
  let risk := if !baseEligible || !sim.passed then Risk.HIGH
    else if deltas.isEmpty then Risk.LOW else Risk.MED
  let verdict := if sim.regressed then Verdict.ROLLBACK
    else if deltas.isEmpty then Verdict.HOLD else Verdict.TUNE
  { proposalId := pid
    symbol := sym
    source := src
    scope := sc
    status := PStatus.PROPOSED
    verdict := verdict
    risk := risk
    deltas := deltas
    guardrails :=
      { eligible := eligible
        reasons := lv.eligibilityReasons ++
          (if sim.passed then [] else [simFailReason]) }
    simulation := sim
    rejectedReason := none
    rejectedBy := none
    currentPolicy := cur
    proposedPolicy := cand }

/-- Modelled from the spec: the propose endpoint — creates the proposal in
the ProposalStore (visible to callers) with a fresh id; it has no side
effect on the PolicyStore. -/
def proposeEndpoint (st : GovState) (lv : LearningVector) (cur : Policy)
    (sim : Simulation) (sym : String) (src : Source) (sc : Scope) :
    GovState × Proposal :=
  let p := propose lv cur sim sym src sc ("prop_" ++ toString st.nextId)
  ({ st with proposals := p :: st.proposals, nextId := st.nextId + 1 }, p)

/-- Modelled from the spec: the apply HTTP endpoint — validates that the
request body carries a proposalId, answering the machine-readable code
PROPOSAL_ID_REQUIRED without touching any store when it is absent. -/
def applyEndpoint (st : GovState) (body : Option String) (env : LiveSignals)
    (actor : String) : GovState × Except GError Application :=
  match body with
  | none => (st, Except.error (GError.BadRequest "PROPOSAL_ID_REQUIRED"))
  | some pid => applyProposal st pid env actor

/-- Boolean success test for an Except result. -/
def exceptOk {ε α : Type} : Except ε α → Bool
  | Except.ok _ => true
  | Except.error _ => false

/-- Sample policy content used by the concrete evaluations below. -/
def cA : PolicyContent := ⟨100, 90, 80, 70, 60, 50, 40⟩

/-- Sample policy content differing from cA in the structure tier. -/
def cB : PolicyContent := ⟨105, 90, 80, 70, 60, 50, 40⟩

/-- Sample policy content differing from cB in the tactical tier. -/
def cC : PolicyContent := ⟨105, 95, 80, 70, 60, 50, 40⟩

/-- Sample active policy at version 1 with content cA. -/
def polA : Policy := ⟨cA, 1⟩

/-- Sample active policy at version 2 with content cB. -/
def polB : Policy := ⟨cB, 2⟩

/-- Sample proposal scope. -/
def scope0 : Scope := ⟨"balanced", "ACTIVE", "30d", 90⟩

/-- Healthy live signals: plenty of samples, low drift, matching hash. -/
def envOpen : LiveSignals := ⟨50, Severity.LOW, true⟩

/-- Live signals with zero resolved LIVE samples. -/
def envLow : LiveSignals := ⟨0, Severity.LOW, true⟩

/-- Sample LIVE-sourced proposal for BTC, from policy cA to cB. -/
def prop1 : Proposal :=
  { proposalId := "p1"
    symbol := "BTC"
    source := Source.LIVE
    scope := scope0
    status := PStatus.PROPOSED
    verdict := Verdict.TUNE
    risk := Risk.LOW
    deltas := [⟨"tierWeights.STRUCTURE", 100, 105⟩]
    guardrails := ⟨true, []⟩
    simulation := ⟨true, [], false⟩
    rejectedReason := none
    rejectedBy := none
    currentPolicy := polA
    proposedPolicy := cB }

/-- Sample second proposal for BTC, from policy cB to cC. -/
def prop2 : Proposal :=
  { prop1 with
      proposalId := "p2"
      deltas := [⟨"tierWeights.TACTICAL", 90, 95⟩]
      currentPolicy := polB
      proposedPolicy := cC }

/-- Sample no-op proposal whose proposed content equals the live content. -/
def propNoop : Proposal :=
  { prop1 with proposalId := "p3", deltas := [], proposedPolicy := cA }

/-- Sample policy record for BTC holding polA with empty history. -/
def recA : PolicyRecord := ⟨"BTC", polA, []⟩

/-- Sample governance state: BTC at polA, two proposed changes, empty
ledger. -/
def stA : GovState := ⟨[recA], [prop1, prop2], [], 0⟩

/-- Sample governance state holding only the no-op proposal. -/
def stNoop : GovState := ⟨[recA], [propNoop], [], 0⟩

/-- Sample learning vector that is learning-eligible. -/
def lvA : LearningVector := ⟨120, 3, 2, true, [], 5⟩

/-- Sample application record: cA replaced by cB on BTC. -/
def appA : Application :=
  { applicationId := 1
    proposalId := "p1"
    symbol := "BTC"
    appliedBy := "ADMIN"
    previousPolicyHash := policyHash cA
    newPolicyHash := policyHash cB }

/-- Sample state after an audited apply of cA → cB on BTC: current policy
polB, history holding polA, ledger holding appA. -/
def stApplied : GovState := ⟨[⟨"BTC", polB, [polA]⟩], [], [appA], 2⟩

/-- Per-status counts of a proposal list partition its length. -/
theorem length_filter_status (ps : List Proposal) :
    (ps.filter (fun p => p.status = PStatus.PROPOSED)).length +
      (ps.filter (fun p => p.status = PStatus.APPLIED)).length +
      (ps.filter (fun p => p.status = PStatus.REJECTED)).length = ps.length := by
  induction ps with
  | nil => simp
  | cons a t ih =>
    cases h : a.status <;> simp [List.filter_cons, h] <;> omega

/-- Updating the found element of a list in place keeps it the first
element satisfying the search predicate, provided the update preserves
the predicate. -/
theorem find_map_ite {α : Type} (p : α → Prop) [DecidablePred p] (g : α → α)
    (l : List α) (r : α) (h : l.find? (fun a => p a) = some r)
    (hg : p (g r)) :
    (l.map (fun a => if p a then g a else a)).find? (fun a => p a) =
      some (g r) := by
  induction l with
  | nil => simp at h
  | cons a t ih =>
    by_cases ha : p a
    · rw [List.find?_cons_of_pos _ (by simpa using ha)] at h
      injection h with h
      subst h
      simp only [List.map_cons, if_pos ha]
      rw [List.find?_cons_of_pos _ (by simpa using hg)]
    · rw [List.find?_cons_of_neg _ (by simpa using ha)] at h
      simp only [List.map_cons, if_neg ha]
      rw [List.find?_cons_of_neg _ (by simpa using ha)]
      exact ih h

/-- C1: GovernanceLock.evaluate returns canApply = true iff the proposal
source is LIVE, liveSamples ≥ 30, drift severity is not blocking and the
contract hash matches; each failing condition contributes its
human-readable reason to the reasons list. -/
theorem evaluate_canApply_iff (s : Signals) :
    ((GovernanceLock.evaluate s).canApply = true ↔
       (s.proposalSource = Source.LIVE ∧ minRequired ≤ s.liveSamples ∧
         s.driftSeverity.blocking = false ∧ s.contractHashMatch = true))
    ∧ (s.proposalSource ≠ Source.LIVE →
        sourceReason ∈ (GovernanceLock.evaluate s).reasons)
    ∧ (s.liveSamples < minRequired →
        samplesReason ∈ (GovernanceLock.evaluate s).reasons)
    ∧ (s.driftSeverity.blocking = true →
        driftReason ∈ (GovernanceLock.evaluate s).reasons)
    ∧ (s.contractHashMatch = false →
        contractReason ∈ (GovernanceLock.evaluate s).reasons) := by
  rcases s with ⟨n, sev, chm, src⟩
  by_cases h : minRequired ≤ n
  · cases src <;> cases chm <;> cases sev <;>
      simp [GovernanceLock.evaluate, Source.isLIVE, Severity.blocking, h]
  · cases src <;> cases chm <;> cases sev <;>
      simp [GovernanceLock.evaluate, Source.isLIVE, Severity.blocking, h]

/-- C1 witness: at concrete signals, a non-LIVE source yields the source
reason, and fully healthy LIVE signals yield canApply = true. -/
theorem evaluate_canApply_iff_witness :
    sourceReason ∈
      (GovernanceLock.evaluate
        ⟨50, Severity.LOW, true, Source.BOOTSTRAP⟩).reasons
    ∧ (GovernanceLock.evaluate
        ⟨50, Severity.LOW, true, Source.LIVE⟩).canApply = true :=
  ⟨(evaluate_canApply_iff ⟨50, Severity.LOW, true, Source.BOOTSTRAP⟩).2.1
      (by decide),
   (evaluate_canApply_iff ⟨50, Severity.LOW, true, Source.LIVE⟩).1.mpr
      ⟨rfl, by decide, rfl, rfl⟩⟩

/-- C9: for every proposal store and symbol, the per-status counts of
stats sum to the total, and this consistency is preserved by proposal
creation, rejection and markApplied. -/
theorem stats_sum_invariant :
    (∀ (props : List Proposal) (sym : String),
      (stats props sym).proposed + (stats props sym).applied +
        (stats props sym).rejected = (stats props sym).total)
    ∧ (∀ st lv cur sim sym src sc sym2,
        (stats (proposeEndpoint st lv cur sim sym src sc).1.proposals
            sym2).proposed +
          (stats (proposeEndpoint st lv cur sim sym src sc).1.proposals
            sym2).applied +
          (stats (proposeEndpoint st lv cur sim sym src sc).1.proposals
            sym2).rejected =
        (stats (proposeEndpoint st lv cur sim sym src sc).1.proposals
            sym2).total)
    ∧ (∀ st pid reason actor sym,
        (stats (reject st pid reason actor).1.proposals sym).proposed +
          (stats (reject st pid reason actor).1.proposals sym).applied +
          (stats (reject st pid reason actor).1.proposals sym).rejected =
        (stats (reject st pid reason actor).1.proposals sym).total)
    ∧ (∀ props pid props2 sym, markApplied props pid = Except.ok props2 →
        (stats props2 sym).proposed + (stats props2 sym).applied +
          (stats props2 sym).rejected = (stats props2 sym).total) := by
  have key : ∀ (props : List Proposal) (sym : String),
      (stats props sym).proposed + (stats props sym).applied +
        (stats props sym).rejected = (stats props sym).total := by
    intro props sym
    simpa [stats] using
      length_filter_status (props.filter (fun p => p.symbol = sym))
  exact ⟨key, fun st lv cur sim sym src sc sym2 => key _ sym2,
    fun st pid reason actor sym => key _ sym,
    fun props pid props2 sym _ => key props2 sym⟩

/-- C9 witness: the consistency equality after a concrete markApplied. -/
theorem stats_sum_invariant_witness :
    markApplied [prop1] "p1" =
      Except.ok [{ prop1 with status := PStatus.APPLIED }]
    ∧ (stats [{ prop1 with status := PStatus.APPLIED }] "BTC").proposed +
        (stats [{ prop1 with status := PStatus.APPLIED }] "BTC").applied +
        (stats [{ prop1 with status := PStatus.APPLIED }] "BTC").rejected =
      (stats [{ prop1 with status := PStatus.APPLIED }] "BTC").total :=
  ⟨by rfl,
   stats_sum_invariant.2.2.2 [prop1] "p1"
     [{ prop1 with status := PStatus.APPLIED }] "BTC" (by rfl)⟩

/-- C10: calling the apply endpoint with no proposalId in the body always
fails with the machine-readable code PROPOSAL_ID_REQUIRED and leaves the
whole governance state (policy store, proposal store, ledger) unchanged. -/
theorem applyEndpoint_requires_proposalId :
    ∀ (st : GovState) (env : LiveSignals) (actor : String),
      applyEndpoint st none env actor =
        (st, Except.error (GError.BadRequest "PROPOSAL_ID_REQUIRED")) :=
  fun _ _ _ => rfl

/-- C8: rejecting a PROPOSED proposal succeeds, setting status REJECTED
and a non-empty rejectedReason, and a repeated rejection fails with
InvalidTransition leaving the state unchanged; rejecting any proposal not
in status PROPOSED fails with InvalidTransition and changes nothing. -/
theorem reject_transitions :
    (∀ st pid reason actor p, reason ≠ "" →
      findProposal st.proposals pid = some p →
      p.status = PStatus.PROPOSED →
      ∃ st2 p2,
        reject st pid reason actor = (st2, Except.ok p2)
        ∧ p2.status = PStatus.REJECTED
        ∧ p2.rejectedReason = some reason
        ∧ reason ≠ ""
        ∧ findProposal st2.proposals pid = some p2
        ∧ reject st2 pid reason actor =
            (st2, Except.error GError.InvalidTransition))
    ∧ (∀ st pid reason actor q, reason ≠ "" →
        findProposal st.proposals pid = some q →
        q.status ≠ PStatus.PROPOSED →
        reject st pid reason actor =
          (st, Except.error GError.InvalidTransition)) := by
  have notPROPOSED : ∀ st pid reason actor q, reason ≠ "" →
      findProposal st.proposals pid = some q →
      q.status ≠ PStatus.PROPOSED →
      reject st pid reason actor =
        (st, Except.error GError.InvalidTransition) := by
    intro st pid reason actor q hr hf hq
    simp only [reject, if_neg hr, hf]
    rw [if_neg hq]
  refine ⟨?_, notPROPOSED⟩
  intro st pid reason actor p hr hf hs
  have hid : p.proposalId = pid := by
    have := List.find?_some hf
    simpa using this
  refine ⟨{ st with proposals := st.proposals.map (fun r =>
      if r.proposalId = pid then
        { p with
            status := PStatus.REJECTED
            rejectedReason := some reason
            rejectedBy := some actor }
      else r) },
    { p with
        status := PStatus.REJECTED
        rejectedReason := some reason
        rejectedBy := some actor }, ?_, rfl, rfl, hr, ?_, ?_⟩
  · simp only [reject, if_neg hr, hf]
    rw [if_pos hs]
  · unfold findProposal at hf ⊢
    exact find_map_ite (fun r => r.proposalId = pid)
      (fun _ => { p with
          status := PStatus.REJECTED
          rejectedReason := some reason
          rejectedBy := some actor })
      st.proposals p hf hid
  · apply notPROPOSED _ _ _ _
      { p with
          status := PStatus.REJECTED
          rejectedReason := some reason
          rejectedBy := some actor } hr
    · unfold findProposal at hf ⊢
      exact find_map_ite (fun r => r.proposalId = pid)
        (fun _ => { p with
            status := PStatus.REJECTED
            rejectedReason := some reason
            rejectedBy := some actor })
        st.proposals p hf hid
    · simp

/-- C8 witness: rejecting the concrete PROPOSED proposal p1 succeeds with
a non-empty reason and its repetition fails InvalidTransition. -/
theorem reject_transitions_witness :
    ∃ st2 p2,
      reject stA "p1" "quality concerns" "ADMIN" = (st2, Except.ok p2)
      ∧ p2.status = PStatus.REJECTED
      ∧ p2.rejectedReason = some "quality concerns"
      ∧ "quality concerns" ≠ ""
      ∧ findProposal st2.proposals "p1" = some p2
      ∧ reject st2 "p1" "quality concerns" "ADMIN" =
          (st2, Except.error GError.InvalidTransition) :=
  reject_transitions.1 stA "p1" "quality concerns" "ADMIN" prop1
    (by decide) (by rfl) (by rfl)

/-- C5: applying any PROPOSED proposal while liveSamples < 30 fails with
GovernanceLocked carrying the minimum-sample reason, regardless of the
other signals, and leaves the governance state unchanged. -/
theorem apply_blocked_low_samples :
    ∀ st pid env actor p,
      findProposal st.proposals pid = some p →
      p.status = PStatus.PROPOSED →
      env.liveSamples < minRequired →
      ∃ rs, applyProposal st pid env actor =
          (st, Except.error (GError.GovernanceLocked rs))
        ∧ samplesReason ∈ rs := by
  intro st pid env actor p hf hs hn
  have hn' : ¬ (minRequired ≤ env.liveSamples) := Nat.not_le.mpr hn
  have hca : (GovernanceLock.evaluate (mkSignals env p.source)).canApply
      = false := by
    simp [GovernanceLock.evaluate, mkSignals, hn']
  have hchk : applyCheck st pid env = Except.error
      (GError.GovernanceLocked
        (GovernanceLock.evaluate (mkSignals env p.source)).reasons) := by
    simp [applyCheck, hf, hs, hca]
  refine ⟨(GovernanceLock.evaluate (mkSignals env p.source)).reasons, ?_, ?_⟩
  · simp [applyProposal, hchk]
  · simp [GovernanceLock.evaluate, mkSignals, hn']

/-- C5 witness: the LIVE-source BTC proposal with liveSamples = 0 is
blocked with the minimum-sample reason and no state change. -/
theorem apply_blocked_low_samples_witness :
    ∃ rs, applyProposal stA "p1" envLow "ADMIN" =
        (stA, Except.error (GError.GovernanceLocked rs))
      ∧ samplesReason ∈ rs :=
  apply_blocked_low_samples stA "p1" envLow "ADMIN" prop1
    (by rfl) (by rfl) (by decide)

/-- C7: the read-only governance-lock status probe and the gate evaluated
inside apply are the same evaluation: for a PROPOSED proposal, the apply
check passes exactly when the probe says canApply, and when blocked it
carries exactly the probe's reasons. -/
theorem preview_enforce_agree :
    ∀ st pid env p,
      findProposal st.proposals pid = some p →
      p.status = PStatus.PROPOSED →
      ((getGovernanceLockStatus env p.source).canApply = true →
        applyCheck st pid env = Except.ok p)
      ∧ ((getGovernanceLockStatus env p.source).canApply = false →
        applyCheck st pid env = Except.error
          (GError.GovernanceLocked
            (getGovernanceLockStatus env p.source).reasons)) := by
  intro st pid env p hf hs
  constructor
  · intro hca
    simp only [getGovernanceLockStatus] at hca
    simp [applyCheck, hf, hs, hca]
  · intro hca
    simp only [getGovernanceLockStatus] at hca
    simp [applyCheck, getGovernanceLockStatus, hf, hs, hca]

/-- C7 witness: with too few live samples, the apply gate on the concrete
state reports exactly the probe's blocked status and reasons. -/
theorem preview_enforce_agree_witness :
    applyCheck stA "p1" envLow = Except.error
      (GError.GovernanceLocked
        (getGovernanceLockStatus envLow prop1.source).reasons) :=
  (preview_enforce_agree stA "p1" envLow prop1 (by rfl) (by rfl)).2
    (by decide)

/-- C6: a proposal whose simulation did not pass is still created and
returned in status PROPOSED, visible in the proposal store, but its
guardrails.eligible is forced to false; creation is never refused for a
failed simulation. -/
theorem propose_sim_failed_still_created :
    ∀ lv cur sim sym src sc pid st, sim.passed = false →
      (propose lv cur sim sym src sc pid).status = PStatus.PROPOSED
      ∧ (propose lv cur sim sym src sc pid).guardrails.eligible = false
      ∧ (proposeEndpoint st lv cur sim sym src sc).1.proposals =
          (proposeEndpoint st lv cur sim sym src sc).2 :: st.proposals
      ∧ (proposeEndpoint st lv cur sim sym src sc).2.status =
          PStatus.PROPOSED
      ∧ (proposeEndpoint st lv cur sim sym src sc).2.guardrails.eligible =
          false := by
  intro lv cur sim sym src sc pid st hsim
  refine ⟨rfl, ?_, rfl, rfl, ?_⟩
  · simp [propose, hsim]
  · simp [proposeEndpoint, propose, hsim]

/-- C6 witness: a concrete failed-simulation proposal is created as
PROPOSED, stored, and ineligible. -/
theorem propose_sim_failed_still_created_witness :
    (propose lvA polA ⟨false, [], false⟩ "BTC" Source.LIVE scope0
        "px").status = PStatus.PROPOSED
    ∧ (propose lvA polA ⟨false, [], false⟩ "BTC" Source.LIVE scope0
        "px").guardrails.eligible = false
    ∧ (proposeEndpoint stA lvA polA ⟨false, [], false⟩ "BTC" Source.LIVE
        scope0).1.proposals =
      (proposeEndpoint stA lvA polA ⟨false, [], false⟩ "BTC" Source.LIVE
        scope0).2 :: stA.proposals
    ∧ (proposeEndpoint stA lvA polA ⟨false, [], false⟩ "BTC" Source.LIVE
        scope0).2.status = PStatus.PROPOSED
    ∧ (proposeEndpoint stA lvA polA ⟨false, [], false⟩ "BTC" Source.LIVE
        scope0).2.guardrails.eligible = false :=
  propose_sim_failed_still_created lvA polA ⟨false, [], false⟩ "BTC"
    Source.LIVE scope0 "px" stA (by rfl)

/-- Inversion of a successful CAS replace: the symbol was found, its
current hash matched, the returned policy bumps the version, and the store
records the swap with the old policy pushed onto the history. -/
theorem replace_ok_inv {ps : PolicyStore} {sym : String} {eh : Nat}
    {c : PolicyContent} {ps2 : PolicyStore} {newPol : Policy}
    (h : replace ps sym eh c = Except.ok (ps2, newPol)) :
    ∃ r, lookupRecord ps sym = some r ∧ r.current.hash = eh
      ∧ newPol = ⟨c, r.current.version + 1⟩
      ∧ ps2 = ps.map (fun q => if q.symbol = sym then
          { q with current := (⟨c, r.current.version + 1⟩ : Policy),
                   history := q.current :: q.history } else q) := by
  cases hrec : lookupRecord ps sym with
  | none => simp [replace, hrec] at h
  | some r =>
    simp only [replace, hrec] at h
    by_cases hh : r.current.hash = eh
    · rw [if_pos hh] at h
      simp only [Except.ok.injEq, Prod.mk.injEq] at h
      exact ⟨r, rfl, hh, h.2.symm, h.1.symm⟩
    · rw [if_neg hh] at h
      simp at h

/-- Updating the found record of a policy store in place keeps it the
record returned for its symbol, when the update preserves the symbol. -/
theorem lookupRecord_map_update (ps : PolicyStore) (sym : String)
    (r : PolicyRecord) (g : PolicyRecord → PolicyRecord)
    (h : lookupRecord ps sym = some r) (hg : (g r).symbol = sym) :
    lookupRecord (ps.map (fun q => if q.symbol = sym then g q else q)) sym
      = some (g r) := by
  unfold lookupRecord at h ⊢
  exact find_map_ite (fun q => q.symbol = sym) g ps r h hg

/-- C3: when rollback succeeds on an application record, the current
policy hash of its symbol equals the application's previousPolicyHash
exactly, the version is incremented, and the rollback record is appended
in front of the untouched ledger. -/
theorem rollback_restores :
    ∀ st appId actor st2 rb a,
      st.ledger.find? (fun x => x.applicationId = appId) = some a →
      rollback st appId actor = (st2, Except.ok rb) →
      (∃ pol, getCurrent st2.policies a.symbol = Except.ok pol
        ∧ pol.hash = a.previousPolicyHash
        ∧ ∀ cur, getCurrent st.policies a.symbol = Except.ok cur →
            pol.version = cur.version + 1)
      ∧ st2.ledger = rb :: st.ledger := by
  intro st appId actor st2 rb a hfind hroll
  unfold rollback at hroll
  rw [hfind] at hroll
  simp only [] at hroll
  cases hl : latestApplication st.ledger a.symbol with
  | none => simp only [hl] at hroll; simp at hroll
  | some latest =>
    simp only [hl] at hroll
    by_cases heq : latest.applicationId = appId
    · rw [if_pos heq] at hroll
      cases hrec : lookupRecord st.policies a.symbol with
      | none => simp only [hrec] at hroll; simp at hroll
      | some r =>
        simp only [hrec] at hroll
        cases hprev : contentWithHash r.history a.previousPolicyHash with
        | none => simp only [hprev] at hroll; simp at hroll
        | some prev =>
          simp only [hprev] at hroll
          cases hrep : replace st.policies a.symbol a.newPolicyHash
              prev.content with
          | error e => simp only [hrep] at hroll; simp at hroll
          | ok pr =>
            obtain ⟨ps2, newPol⟩ := pr
            simp only [hrep, Prod.mk.injEq, Except.ok.injEq] at hroll
            obtain ⟨hst2, hrb⟩ := hroll
            obtain ⟨r0, hrec0, hh0, hnp, hps2⟩ := replace_ok_inv hrep
            rw [hrec] at hrec0
            injection hrec0 with hrec0
            subst hrec0
            have hprevHash : prev.hash = a.previousPolicyHash := by
              have := List.find?_some hprev
              simpa using this
            have hrsym : r.symbol = a.symbol := by
              have := List.find?_some hrec
              simpa using this
            refine ⟨⟨newPol, ?_, ?_, ?_⟩, ?_⟩
            · rw [← hst2]
              simp only [getCurrent]
              rw [hps2]
              rw [lookupRecord_map_update st.policies a.symbol r _ hrec
                (by simpa using hrsym)]
              rw [hnp]
            · rw [hnp]
              simpa [Policy.hash] using hprevHash
            · intro cur hcur
              rw [hnp]
              simp only [getCurrent, hrec] at hcur
              injection hcur with hcur
              rw [← hcur]
            · rw [← hst2, ← hrb]
    · rw [if_neg heq] at hroll
      simp at hroll

/-- The rollback record produced on the concrete applied state. -/
def rbRecord : Application := ⟨2, "p1", "BTC", "ADMIN", policyHash cB, policyHash cA⟩

/-- C3 witness: rolling back the concrete application appA restores the
hash of cA, bumps the version, and appends the rollback record. -/
theorem rollback_restores_witness :
    (∃ pol, getCurrent (rollback stApplied 1 "ADMIN").1.policies
        appA.symbol = Except.ok pol
      ∧ pol.hash = appA.previousPolicyHash
      ∧ ∀ cur, getCurrent stApplied.policies appA.symbol = Except.ok cur →
          pol.version = cur.version + 1)
    ∧ (rollback stApplied 1 "ADMIN").1.ledger = rbRecord :: stApplied.ledger :=
  rollback_restores stApplied 1 "ADMIN" (rollback stApplied 1 "ADMIN").1
    rbRecord appA (by rfl) (by rfl)

/-- Inversion of a passing apply check: the proposal was found under the
requested id with status PROPOSED. -/
theorem applyCheck_ok_inv {st : GovState} {pid : String} {env : LiveSignals}
    {p : Proposal} (h : applyCheck st pid env = Except.ok p) :
    findProposal st.proposals pid = some p ∧ p.status = PStatus.PROPOSED
      ∧ p.proposalId = pid := by
  cases hf : findProposal st.proposals pid with
  | none => simp [applyCheck, hf] at h
  | some q =>
    simp only [applyCheck, hf] at h
    by_cases hs : q.status = PStatus.PROPOSED
    · rw [if_pos hs] at h
      by_cases hca :
          (GovernanceLock.evaluate (mkSignals env q.source)).canApply = true
      · simp only [hca, if_true] at h
        injection h with h
        subst h
        refine ⟨rfl, hs, ?_⟩
        have := List.find?_some hf
        simpa using this
      · simp only [hca] at h
        simp at h
    · rw [if_neg hs] at h
      simp at h

/-- Inversion of a successful apply: the application record carries the
state's fresh id, the counter advanced by one, the record was prepended to
the ledger, and the applied proposal exists in the pre-state under the
requested id with matching symbol. -/
theorem applyProposal_ok_inv {st : GovState} {pid : String}
    {env : LiveSignals} {actor : String} {st2 : GovState} {a : Application}
    (h : applyProposal st pid env actor = (st2, Except.ok a)) :
    a.applicationId = st.nextId ∧ st2.nextId = st.nextId + 1
      ∧ st2.ledger = a :: st.ledger
      ∧ ∃ p, findProposal st.proposals pid = some p ∧ a.symbol = p.symbol := by
  cases hchk : applyCheck st pid env with
  | error e => simp [applyProposal, hchk] at h
  | ok p =>
    obtain ⟨hf, hs, hid⟩ := applyCheck_ok_inv hchk
    simp only [applyProposal, hchk] at h
    unfold applyWrite at h
    cases hrep : replace st.policies p.symbol p.currentPolicy.hash
        p.proposedPolicy with
    | error e => simp only [hrep] at h; simp at h
    | ok pr =>
      obtain ⟨ps2, newPol⟩ := pr
      simp only [hrep] at h
      cases hma : markApplied st.proposals p.proposalId with
      | error e => simp only [hma] at h; simp at h
      | ok props2 =>
        simp only [hma, Prod.mk.injEq, Except.ok.injEq] at h
        obtain ⟨hst2, ha⟩ := h
        refine ⟨?_, ?_, ?_, p, hf, ?_⟩
        · rw [← ha]
        · rw [← hst2]
        · rw [← hst2, ← ha]
        · rw [← ha]

/-- C4: after two sequential successful applies A1 then A2 on the same
symbol, rolling back A1 fails with AlreadyRolledBack and changes nothing;
rolling back a nonexistent applicationId fails with NotFound. -/
theorem rollback_only_latest :
    (∀ st0 pid1 pid2 env actor st1 st2 a1 a2,
      applyProposal st0 pid1 env actor = (st1, Except.ok a1) →
      applyProposal st1 pid2 env actor = (st2, Except.ok a2) →
      a1.symbol = a2.symbol →
      rollback st2 a1.applicationId actor =
        (st2, Except.error GError.AlreadyRolledBack))
    ∧ (∀ st appId actor,
        st.ledger.find? (fun x => x.applicationId = appId) = none →
        rollback st appId actor = (st, Except.error GError.NotFound)) := by
  constructor
  · intro st0 pid1 pid2 env actor st1 st2 a1 a2 h1 h2 hsym
    obtain ⟨hid1, hn1, hl1, p1, hf1, hs1⟩ := applyProposal_ok_inv h1
    obtain ⟨hid2, hn2, hl2, p2, hf2, hs2⟩ := applyProposal_ok_inv h2
    have hne : ¬ (a2.applicationId = a1.applicationId) := by omega
    have hfind : st2.ledger.find?
        (fun x => x.applicationId = a1.applicationId) = some a1 := by
      rw [hl2, hl1]
      rw [List.find?_cons_of_neg _ (by simpa using hne)]
      rw [List.find?_cons_of_pos _ (by simp)]
    have hlatest : latestApplication st2.ledger a1.symbol = some a2 := by
      unfold latestApplication
      rw [hl2]
      rw [List.find?_cons_of_pos _ (by simp [hsym.symm])]
    unfold rollback
    rw [hfind]
    simp only [hlatest]
    rw [if_neg hne]
  · intro st appId actor hnone
    unfold rollback
    rw [hnone]

/-- The state after applying the first concrete proposal. -/
def stOne : GovState := (applyProposal stA "p1" envOpen "ADMIN").1

/-- The state after applying the second concrete proposal on top. -/
def stTwo : GovState := (applyProposal stOne "p2" envOpen "ADMIN").1

/-- The audit record of the first concrete apply. -/
def appFirst : Application := ⟨0, "p1", "BTC", "ADMIN", policyHash cA, policyHash cB⟩

/-- The audit record of the second concrete apply. -/
def appSecond : Application := ⟨1, "p2", "BTC", "ADMIN", policyHash cB, policyHash cC⟩

/-- C4 witness: on the concrete two-apply history, rolling back the first
application fails AlreadyRolledBack, and a missing id fails NotFound. -/
theorem rollback_only_latest_witness :
    rollback stTwo 0 "ADMIN" = (stTwo, Except.error GError.AlreadyRolledBack)
    ∧ rollback stA 99 "ADMIN" = (stA, Except.error GError.NotFound) :=
  ⟨rollback_only_latest.1 stA "p1" "p2" envOpen "ADMIN" stOne stTwo
      appFirst appSecond (by rfl) (by rfl) (by rfl),
   rollback_only_latest.2 stA 99 "ADMIN" (by rfl)⟩

/-- markApplied on a non-PROPOSED proposal fails InvalidTransition. -/
theorem markApplied_not_proposed {props : List Proposal} {pid : String}
    {q : Proposal} (hf : findProposal props pid = some q)
    (hq : q.status ≠ PStatus.PROPOSED) :
    markApplied props pid = Except.error GError.InvalidTransition := by
  simp [markApplied, hf, hq]

/-- After marking a proposal applied, it is still found under its id with
status APPLIED. -/
theorem findProposal_after_mark {props : List Proposal} {pid : String}
    {p : Proposal} (hf : findProposal props pid = some p) :
    findProposal (props.map (fun r =>
        if r.proposalId = pid then { r with status := PStatus.APPLIED }
        else r)) pid = some { p with status := PStatus.APPLIED } := by
  have hid : p.proposalId = pid := by
    have := List.find?_some hf
    simpa using this
  unfold findProposal at hf ⊢
  exact find_map_ite (fun r => r.proposalId = pid)
    (fun r => { r with status := PStatus.APPLIED }) props p hf
    (by simpa using hid)

/-- The full effect of a write phase whose CAS succeeds on a PROPOSED
proposal: policy swapped, proposal marked applied, record appended. -/
theorem applyWrite_ok_full {st : GovState} {p : Proposal} (actor : String)
    {ps2 : PolicyStore} {newPol : Policy}
    (hf : findProposal st.proposals p.proposalId = some p)
    (hs : p.status = PStatus.PROPOSED)
    (hrep : replace st.policies p.symbol p.currentPolicy.hash
      p.proposedPolicy = Except.ok (ps2, newPol)) :
    applyWrite st p actor =
      ({ st with
          policies := ps2
          proposals := st.proposals.map (fun r =>
            if r.proposalId = p.proposalId then
              { r with status := PStatus.APPLIED } else r)
          ledger :=
            ({ applicationId := st.nextId
               proposalId := p.proposalId
               symbol := p.symbol
               appliedBy := actor
               previousPolicyHash := p.currentPolicy.hash
               newPolicyHash := newPol.hash } : Application) :: st.ledger
          nextId := st.nextId + 1 },
       Except.ok
         { applicationId := st.nextId
           proposalId := p.proposalId
           symbol := p.symbol
           appliedBy := actor
           previousPolicyHash := p.currentPolicy.hash
           newPolicyHash := newPol.hash }) := by
  have hma : markApplied st.proposals p.proposalId =
      Except.ok (st.proposals.map (fun r =>
        if r.proposalId = p.proposalId then
          { r with status := PStatus.APPLIED } else r)) := by
    simp [markApplied, hf, hs]
  simp [applyWrite, hrep, hma]

/-- A write phase against a store whose proposal is no longer PROPOSED
never reports success. -/
theorem applyWrite_not_ok_of_applied (st1 : GovState) (p : Proposal)
    (actor : String) (q : Proposal)
    (hfm : findProposal st1.proposals p.proposalId = some q)
    (hq : q.status ≠ PStatus.PROPOSED) :
    exceptOk (applyWrite st1 p actor).2 = false := by
  have hma := markApplied_not_proposed hfm hq
  cases hrep2 : replace st1.policies p.symbol p.currentPolicy.hash
      p.proposedPolicy with
  | error e => simp [applyWrite, hrep2, exceptOk]
  | ok pr =>
    obtain ⟨ps3, np⟩ := pr
    simp [applyWrite, hrep2, hma, exceptOk]

/-- C2 (amended): in the storage-serialized race of two apply calls on the
same proposal with the same pre-apply hash, it is never the case that both
succeed; and whenever the proposal is fresh, unlocked and actually changes
the policy hash, exactly one call succeeds and the other fails with
StaleHash. -/
theorem raceApply_exclusive :
    (∀ st pid env actor,
      ¬ (exceptOk (raceApply st pid pid env actor).2.1 = true ∧
         exceptOk (raceApply st pid pid env actor).2.2 = true))
    ∧ (∀ st pid env actor p r,
        findProposal st.proposals pid = some p →
        p.status = PStatus.PROPOSED →
        (GovernanceLock.evaluate (mkSignals env p.source)).canApply = true →
        lookupRecord st.policies p.symbol = some r →
        r.current.hash = p.currentPolicy.hash →
        policyHash p.proposedPolicy ≠ p.currentPolicy.hash →
        ∃ a, (raceApply st pid pid env actor).2.1 = Except.ok a
          ∧ (raceApply st pid pid env actor).2.2 =
              Except.error GError.StaleHash) := by
  constructor
  · intro st pid env actor
    cases hchk : applyCheck st pid env with
    | error e => simp [raceApply, hchk, exceptOk]
    | ok p =>
      obtain ⟨hf, hs, hid⟩ := applyCheck_ok_inv hchk
      subst hid
      simp only [raceApply, hchk]
      rintro ⟨h1, h2⟩
      cases hrep : replace st.policies p.symbol p.currentPolicy.hash
          p.proposedPolicy with
      | error e => simp [applyWrite, hrep, exceptOk] at h1
      | ok pr =>
        obtain ⟨ps2, newPol⟩ := pr
        have hfm : findProposal (applyWrite st p actor).1.proposals
            p.proposalId = some { p with status := PStatus.APPLIED } := by
          rw [applyWrite_ok_full actor hf hs hrep]
          exact findProposal_after_mark hf
        have h2f := applyWrite_not_ok_of_applied (applyWrite st p actor).1
          p actor { p with status := PStatus.APPLIED } hfm (by simp)
        rw [h2f] at h2
        exact Bool.false_ne_true h2
  · intro st pid env actor p r hf hs hca hrec hfresh hchange
    have hchk : applyCheck st pid env = Except.ok p := by
      simp [applyCheck, hf, hs, hca]
    have hid : p.proposalId = pid := by
      have := List.find?_some hf
      simpa using this
    subst hid
    simp only [raceApply, hchk]
    have hrep : replace st.policies p.symbol p.currentPolicy.hash
        p.proposedPolicy = Except.ok
          (st.policies.map (fun q =>
            if q.symbol = p.symbol then
              { q with
                  current :=
                    (⟨p.proposedPolicy, r.current.version + 1⟩ : Policy)
                  history := q.current :: q.history }
            else q),
           (⟨p.proposedPolicy, r.current.version + 1⟩ : Policy)) := by
      simp [replace, hrec, hfresh]
    have hrsym : r.symbol = p.symbol := by
      have := List.find?_some hrec
      simpa using this
    have hw1 := applyWrite_ok_full actor hf hs hrep
    have hlook := lookupRecord_map_update st.policies p.symbol r
      (fun q =>
        { q with
            current := (⟨p.proposedPolicy, r.current.version + 1⟩ : Policy)
            history := q.current :: q.history })
      hrec (by simpa using hrsym)
    have hch' : ¬ (policyHash p.proposedPolicy =
        policyHash p.currentPolicy.content) := by
      simpa [Policy.hash] using hchange
    have hstaleMap : replace
        (st.policies.map (fun q =>
          if q.symbol = p.symbol then
            { q with
                current :=
                  (⟨p.proposedPolicy, r.current.version + 1⟩ : Policy)
                history := q.current :: q.history }
          else q))
        p.symbol p.currentPolicy.hash p.proposedPolicy =
        Except.error GError.StaleHash := by
      simp [replace, hlook, Policy.hash, hch']
    rw [hw1]
    refine ⟨_, rfl, ?_⟩
    simp [applyWrite, hstaleMap]

/-- C2 counterexample: for a no-op proposal whose proposed content equals
the live content, the losing concurrent apply fails at mark-applied with
IntegrityFault, not with StaleHash, refuting the claim as stated. -/
theorem raceApply_noop_counterexample :
    (raceApply stNoop "p3" "p3" envOpen "ADMIN").2.1 =
      Except.ok
        (⟨0, "p3", "BTC", "ADMIN", policyHash cA, policyHash cA⟩ :
          Application)
    ∧ (raceApply stNoop "p3" "p3" envOpen "ADMIN").2.2 =
      Except.error GError.IntegrityFault
    ∧ ¬ (raceApply stNoop "p3" "p3" envOpen "ADMIN").2.2 =
      Except.error GError.StaleHash := by
  refine ⟨by rfl, by rfl, ?_⟩
  intro hcontra
  have h1 : (raceApply stNoop "p3" "p3" envOpen "ADMIN").2.2 =
      Except.error GError.IntegrityFault := by rfl
  rw [h1] at hcontra
  simp at hcontra

/-- C2 witness: on the concrete hash-changing proposal p1, the race yields
one success and one StaleHash failure. -/
theorem raceApply_exclusive_witness :
    ∃ a, (raceApply stA "p1" "p1" envOpen "ADMIN").2.1 = Except.ok a
      ∧ (raceApply stA "p1" "p1" envOpen "ADMIN").2.2 =
          Except.error GError.StaleHash :=
  raceApply_exclusive.2 stA "p1" envOpen "ADMIN" prop1 recA
    (by rfl) (by rfl) (by decide) (by rfl) (by rfl) (by decide)

end PolicyGovernance
